import Mathlib

/-
  Verification development for the CloudSnooze AWS test-resource cleanup
  routine (src/scripts/aws_cleanup_lambda.py).

  The Python program is a single linear procedure `lambda_handler`:
    1. read MAX_AGE_HOURS / TAG_KEY / TAG_VALUE from the environment
       (int() parse of the age; a non-integer raises and is not caught);
    2. compute max_age_seconds and capture current_time (UTC) once;
    3. query EC2 for instances with tag tag_key=tag_value and
       instance-state-name in {pending, running, stopping, stopped};
    4. for each matched instance: read launch_time, compute the age,
       and if age_seconds > max_age_seconds read the tags (for logging),
       call terminate(), and append the id to terminated_instances;
       any exception in this per-instance block is caught and appended
       to errors as "Error processing instance {id}: {e}";
    5. a failure of the query itself is caught at the batch level and
       appended to errors as "Error in EC2 cleanup: {e}";
    6. return {"terminated_instances": ..., "errors": ...}.

  The embedding below models timestamps as rationals (seconds on one
  absolute UTC timeline; `total_seconds()` is fraction-permitting),
  Python exceptions as `Except String`, the ambient environment as
  optional strings, the EC2 account as a list of instances (a query
  failure as `Except.error`), and the wall clock as a stream of
  readings consumed one `now()` call at a time.
-/

namespace CloudSnooze

/-- Lifecycle states of an EC2 instance (the full AWS enumeration). -/
inductive InstanceState
  | pending
  | running
  | shuttingDown
  | stopping
  | stopped
  | terminated
deriving DecidableEq

/-- The AWS API name of each lifecycle state, as used by the
`instance-state-name` filter values. -/
def InstanceState.apiName : InstanceState → String
  | .pending => "pending"
  | .running => "running"
  | .shuttingDown => "shutting-down"
  | .stopping => "stopping"
  | .stopped => "stopped"
  | .terminated => "terminated"

instance instDecEqExcept {ε α : Type} [DecidableEq ε] [DecidableEq α] :
    DecidableEq (Except ε α) := fun x y =>
  match x, y with
  | .ok a, .ok b => decidable_of_iff (a = b) (by simp)
  | .ok _, .error _ => .isFalse (by simp)
  | .error _, .ok _ => .isFalse (by simp)
  | .error e, .error f => decidable_of_iff (e = f) (by simp)

/-- One EC2 instance as the procedure observes it.  `id` is the
identifier (attribute access on it never makes an API call), `tags` is
the provider-side tag set used by the query filter, `state` the
lifecycle state at query time.  The three `Except` fields model the
fallible per-instance operations of the loop body: lazy-loading
`launch_time` (an API call that may raise), the in-loop `instance.tags`
read used for logging, and the `terminate()` call; `Except.error e`
carries the exception detail `str(e)`. -/
structure Instance where
  id : String
  tags : List (String × String)
  state : InstanceState
  launch_time : Except String ℚ
  tags_read : Except String (List (String × String))
  terminate_result : Except String Unit
deriving DecidableEq

/-- The mutable `results` dictionary of the handler. -/
structure ResultSummary where
  terminated_instances : List String
  errors : List String
deriving DecidableEq

/-- Environment variables visible to the process (`None` = unset). -/
structure Env where
  MAX_AGE_HOURS : Option String
  TAG_KEY : Option String
  TAG_VALUE : Option String

/-- The wall clock: a stream of UTC readings (rational seconds), with
`ticks` counting how many `now()` calls have been made so far. -/
structure Clock where
  readings : ℕ → ℚ
  ticks : ℕ

/-- One call of `datetime.datetime.now(datetime.timezone.utc)`:
returns the next reading and advances the clock. -/
def Clock.now (c : Clock) : ℚ × Clock :=
  (c.readings c.ticks, ⟨c.readings, c.ticks + 1⟩)

/-- `DEFAULT_MAX_AGE_HOURS = 2` from the source. -/
def DEFAULT_MAX_AGE_HOURS : ℤ := 2

/-- `DEFAULT_TAG_KEY = "Purpose"` from the source. -/
def DEFAULT_TAG_KEY : String := "Purpose"

/-- `DEFAULT_TAG_VALUE = "Testing"` from the source. -/
def DEFAULT_TAG_VALUE : String := "Testing"

/-- Digit-string value: `some n` when the character list is a nonempty
run of decimal digits. -/
def parseDigits (cs : List Char) : Option ℕ :=
  if cs ≠ [] ∧ cs.all Char.isDigit then
    some (cs.foldl (fun n c => n * 10 + (c.toNat - 48)) 0)
  else
    none

/-- Leading and trailing whitespace removed, as Python `int` ignores
it around the number. -/
def stripEnds (cs : List Char) : List Char :=
  ((cs.dropWhile Char.isWhitespace).reverse.dropWhile Char.isWhitespace).reverse

/-- Python `int(s)` on a string: strip surrounding whitespace, then an
optional sign followed by a nonempty digit run; anything else raises
`ValueError` (modelled as `none`). -/
def pyIntOfString (s : String) : Option ℤ :=
  match stripEnds s.toList with
  | '+' :: cs => (parseDigits cs).map Int.ofNat
  | '-' :: cs => (parseDigits cs).map (fun n => -(n : ℤ))
  | cs => (parseDigits cs).map Int.ofNat

/-- Line 31 of the source:
`int(get_env_var("MAX_AGE_HOURS", DEFAULT_MAX_AGE_HOURS))` — when the
variable is unset, `int` is applied to the integer default (identity);
when set, the string is parsed and a parse failure raises. -/
def resolveMaxAgeHours (env : Env) : Except String ℤ :=
  match env.MAX_AGE_HOURS with
  | none => .ok DEFAULT_MAX_AGE_HOURS
  | some s =>
    match pyIntOfString s with
    | some n => .ok n
    | none => .error ("invalid literal for int() with base 10: " ++ s)

/-- AWS `tag:{key}` filter with values `[value]`: the instance has some
tag whose key is `tag_key` and whose value is `tag_value`. -/
def tagFilterMatch (tag_key tag_value : String) (i : Instance) : Bool :=
  i.tags.any (fun p => p.1 == tag_key && p.2 == tag_value)

/-- The state names passed to the `instance-state-name` filter at
lines 51-56 of the source. -/
def activeStateNames : List String :=
  ["pending", "running", "stopping", "stopped"]

/-- Whether an instance passes both query filters of
`ec2.instances.filter(Filters=[...])`. -/
def matchesFilters (tag_key tag_value : String) (i : Instance) : Bool :=
  tagFilterMatch tag_key tag_value i
    && activeStateNames.contains i.state.apiName

/-- The instance collection returned by the provider query: the account
restricted to the two filters, in discovery order. -/
def matchedInstances (account : List Instance) (tag_key tag_value : String) :
    List Instance :=
  account.filter (matchesFilters tag_key tag_value)

/-- The error string built in the per-instance exception handler:
`f"Error processing instance {instance.id}: {str(e)}"`. -/
def perInstanceError (i : Instance) (e : String) : String :=
  "Error processing instance " ++ i.id ++ ": " ++ e

/-- The body of the per-instance loop (lines 59-83 of the source),
including its try/except: read the launch time, compare the age
against the threshold, and in the over-age branch read the tags, call
terminate and append the id; any raised exception is caught and
appended to `errors`. -/
def processInstance (current_time : ℚ) (max_age_seconds : ℤ)
    (res : ResultSummary) (inst : Instance) : ResultSummary :=
  match inst.launch_time with
  | .error e => { res with errors := res.errors ++ [perInstanceError inst e] }
  | .ok launch_time =>
    let age_seconds : ℚ := current_time - launch_time
    if age_seconds > (max_age_seconds : ℚ) then
      match inst.tags_read with
      | .error e =>
        { res with errors := res.errors ++ [perInstanceError inst e] }
      | .ok _ =>
        match inst.terminate_result with
        | .error e =>
          { res with errors := res.errors ++ [perInstanceError inst e] }
        | .ok _ =>
          { res with
              terminated_instances := res.terminated_instances ++ [inst.id] }
    else
      res

/-- The sequential loop over the matched instances, threading the
`results` accumulator. -/
def runInstances (current_time : ℚ) (max_age_seconds : ℤ)
    (l : List Instance) (res : ResultSummary) : ResultSummary :=
  l.foldl (processInstance current_time max_age_seconds) res

/-- The `results` dictionary as initialised at lines 41-44. -/
def initResults : ResultSummary :=
  ⟨[], []⟩

/-- The full handler.  `event` and `context` are the two opaque Lambda
arguments; `provider` is the outcome of the EC2 query stage
(`Except.error e` when the query raises, `Except.ok account` giving
the account contents otherwise); `clock` supplies `now()` readings.
Returns the raised exception or the Result Summary, together with the
advanced clock. -/
def lambda_handler {α β : Type} (_event : α) (_context : β) (env : Env)
    (provider : Except String (List Instance)) (clock : Clock) :
    Except String ResultSummary × Clock :=
  match resolveMaxAgeHours env with
  | .error e => (.error e, clock)
  | .ok max_age_hours =>
    let tag_key := env.TAG_KEY.getD DEFAULT_TAG_KEY
    let tag_value := env.TAG_VALUE.getD DEFAULT_TAG_VALUE
    let max_age_seconds := max_age_hours * 3600
    let nowRead := clock.now
    let current_time := nowRead.1
    match provider with
    | .error e =>
      (.ok ⟨[], ["Error in EC2 cleanup: " ++ e]⟩, nowRead.2)
    | .ok account =>
      (.ok (runInstances current_time max_age_seconds
              (matchedInstances account tag_key tag_value) initResults),
        nowRead.2)

/-! ### Derived predicates describing the loop body's code paths -/

/-- Boolean success of a fallible operation. -/
def Except.succeeded {ε α : Type} : Except ε α → Bool
  | .ok _ => true
  | .error _ => false

/-- Every fallible per-instance operation of this instance succeeds. -/
def instanceOpsOk (i : Instance) : Bool :=
  (Except.succeeded i.launch_time && Except.succeeded i.tags_read)
    && Except.succeeded i.terminate_result

/-- The exception, if any, raised while processing one instance:
follows exactly the code path of the loop body. -/
def processRaises (current_time : ℚ) (max_age_seconds : ℤ)
    (i : Instance) : Option String :=
  match i.launch_time with
  | .error e => some e
  | .ok launch_time =>
    if current_time - launch_time > (max_age_seconds : ℚ) then
      match i.tags_read with
      | .error e => some e
      | .ok _ =>
        match i.terminate_result with
        | .error e => some e
        | .ok _ => none
    else none

/-- This instance follows the full termination path: readable launch
time, age strictly over the threshold, readable tags and a terminate
call that returns normally. -/
def terminationSucceeds (current_time : ℚ) (max_age_seconds : ℤ)
    (i : Instance) : Bool :=
  match i.launch_time with
  | .error _ => false
  | .ok launch_time =>
    decide (current_time - launch_time > (max_age_seconds : ℚ))
      && Except.succeeded i.tags_read
      && Except.succeeded i.terminate_result

/-- Age strictly over the threshold, on the recorded launch time. -/
def strictlyOverAge (current_time : ℚ) (max_age_seconds : ℤ)
    (i : Instance) : Bool :=
  match i.launch_time with
  | .error _ => false
  | .ok launch_time =>
    decide (current_time - launch_time > (max_age_seconds : ℚ))

/-- What one loop iteration appends to `terminated_instances`. -/
def termDelta (t : ℚ) (m : ℤ) (i : Instance) : List String :=
  if terminationSucceeds t m i then [i.id] else []

/-- What one loop iteration appends to `errors`. -/
def errDelta (t : ℚ) (m : ℤ) (i : Instance) : List String :=
  match processRaises t m i with
  | some e => [perInstanceError i e]
  | none => []

/-! ### Core lemmas about the loop -/

theorem processInstance_eq (t : ℚ) (m : ℤ) (res : ResultSummary)
    (i : Instance) :
    processInstance t m res i =
      ⟨res.terminated_instances ++ termDelta t m i,
        res.errors ++ errDelta t m i⟩ := by
  unfold processInstance termDelta errDelta terminationSucceeds processRaises
  cases hl : i.launch_time with
  | error e => simp
  | ok launch_time =>
    by_cases hage : t - launch_time > (m : ℚ)
    · simp only [hage, if_true, decide_eq_true_eq, if_pos hage]
      cases ht : i.tags_read with
      | error e => simp [Except.succeeded, hage]
      | ok tg =>
        cases htr : i.terminate_result with
        | error e => simp [Except.succeeded, hage]
        | ok u => simp [Except.succeeded, hage]
    · simp [hage]

theorem runInstances_eq (t : ℚ) (m : ℤ) (l : List Instance)
    (res : ResultSummary) :
    runInstances t m l res =
      ⟨res.terminated_instances
          ++ (l.filter (terminationSucceeds t m)).map Instance.id,
        res.errors ++ (l.map (errDelta t m)).flatten⟩ := by
  induction l generalizing res with
  | nil => simp [runInstances]
  | cons i l ih =>
    have h1 : runInstances t m (i :: l) res
        = runInstances t m l (processInstance t m res i) := rfl
    rw [h1, ih, processInstance_eq]
    by_cases hs : terminationSucceeds t m i
    · simp [termDelta, hs, List.filter_cons, List.append_assoc]
    · simp [termDelta, hs, List.filter_cons, List.append_assoc]

theorem runInstances_terminated (t : ℚ) (m : ℤ) (l : List Instance) :
    (runInstances t m l initResults).terminated_instances
      = (l.filter (terminationSucceeds t m)).map Instance.id := by
  rw [runInstances_eq]
  simp [initResults]

theorem runInstances_errors (t : ℚ) (m : ℤ) (l : List Instance) :
    (runInstances t m l initResults).errors
      = (l.map (errDelta t m)).flatten := by
  rw [runInstances_eq]
  simp [initResults]

theorem errDelta_of_raises (t : ℚ) (m : ℤ) (i : Instance) (e : String)
    (h : processRaises t m i = some e) :
    errDelta t m i = [perInstanceError i e] := by
  unfold errDelta
  rw [h]

theorem not_succeeds_of_raises (t : ℚ) (m : ℤ) (i : Instance) (e : String)
    (h : processRaises t m i = some e) :
    terminationSucceeds t m i = false := by
  unfold processRaises at h
  unfold terminationSucceeds
  cases hl : i.launch_time with
  | error f => rfl
  | ok launch_time =>
    simp only [hl] at h
    by_cases hage : t - launch_time > (m : ℚ)
    · simp only [hage, if_pos hage] at h
      cases ht : i.tags_read with
      | error f => simp [Except.succeeded, ht]
      | ok tg =>
        simp only [ht] at h
        cases htr : i.terminate_result with
        | error f => simp [Except.succeeded, htr]
        | ok u => simp [htr] at h
    · simp [hage]

theorem succeeds_eq_overAge_of_opsOk (t : ℚ) (m : ℤ) (i : Instance)
    (h : instanceOpsOk i = true) :
    terminationSucceeds t m i = strictlyOverAge t m i := by
  unfold instanceOpsOk at h
  rw [Bool.and_eq_true, Bool.and_eq_true] at h
  unfold terminationSucceeds strictlyOverAge
  cases hl : i.launch_time with
  | error f => rfl
  | ok launch_time => simp [h.1.2, h.2]

/-! ### Concrete instances used by witnesses -/

/-- A matched instance, 3 hours old at time 10800, all operations
succeed. -/
def instA : Instance :=
  { id := "i-aged"
    tags := [("Purpose", "Testing")]
    state := .running
    launch_time := .ok 0
    tags_read := .ok [("Purpose", "Testing")]
    terminate_result := .ok () }

/-- A matched instance, 0.5 hours old at time 10800, all operations
succeed. -/
def instB : Instance :=
  { id := "i-fresh"
    tags := [("Purpose", "Testing")]
    state := .stopped
    launch_time := .ok 9000
    tags_read := .ok [("Purpose", "Testing")]
    terminate_result := .ok () }

/-- A matched instance whose launch-time read raises. -/
def instBad : Instance :=
  { id := "i-bad"
    tags := [("Purpose", "Testing")]
    state := .running
    launch_time := .error "AccessDenied"
    tags_read := .ok []
    terminate_result := .ok () }

/-! ### Claim theorems -/

/-- C1: for every matched instance whose per-instance operations all
succeed, a termination request is issued and its identifier recorded
in `terminated_instances` exactly when its age (current time minus
launch timestamp) is strictly greater than `max_age_seconds`
(`terminated_instances` equals the ids of the strictly-over-age
instances, in order, and issuance coincides with the strict age test);
an instance whose age equals the threshold exactly takes the skip
branch: the loop body leaves the results untouched, so no termination
request is issued and its identifier is not appended. -/
theorem c1_strict_age_threshold (t : ℚ) (m : ℤ) (l : List Instance)
    (h : ∀ i ∈ l, instanceOpsOk i = true) :
    ((runInstances t m l initResults).terminated_instances
        = (l.filter (strictlyOverAge t m)).map Instance.id)
      ∧ (∀ i ∈ l, terminationSucceeds t m i = strictlyOverAge t m i)
      ∧ ∀ (i : Instance) (launch_time : ℚ) (res : ResultSummary),
          i.launch_time = .ok launch_time →
          t - launch_time = (m : ℚ) →
          processInstance t m res i = res := by
  refine ⟨?_, ?_, ?_⟩
  · rw [runInstances_terminated]
    congr 1
    exact List.filter_congr
      (fun i hi => succeeds_eq_overAge_of_opsOk t m i (h i hi))
  · exact fun i hi => succeeds_eq_overAge_of_opsOk t m i (h i hi)
  · intro i launch_time res hl hage
    unfold processInstance
    rw [hl]
    simp [hage]

theorem c1_strict_age_threshold_witness :
    ((runInstances 10800 7200 [instA, instB] initResults).terminated_instances
        = ([instA, instB].filter (strictlyOverAge 10800 7200)).map Instance.id)
      ∧ (∀ i ∈ [instA, instB],
          terminationSucceeds 10800 7200 i = strictlyOverAge 10800 7200 i)
      ∧ ∀ (i : Instance) (launch_time : ℚ) (res : ResultSummary),
          i.launch_time = .ok launch_time →
          (10800 : ℚ) - launch_time = ((7200 : ℤ) : ℚ) →
          processInstance 10800 7200 res i = res :=
  c1_strict_age_threshold 10800 7200 [instA, instB] (by decide)

/-- C2: when processing one instance raises (with detail `e`), the
exception is caught, formatted as
"Error processing instance {id}: {e}", and appended to `errors`; the
whole batch result equals the failing instance's single error entry
spliced between the results of independently processing the instances
before it and after it — so every remaining instance is still
processed with its outcome unaffected, and `errors` gains exactly one
entry for the failed instance. -/
theorem c2_per_instance_isolation (t : ℚ) (m : ℤ)
    (pre post : List Instance) (bad : Instance) (e : String)
    (h : processRaises t m bad = some e) :
    runInstances t m (pre ++ bad :: post) initResults =
      ⟨(runInstances t m pre initResults).terminated_instances
          ++ (runInstances t m post initResults).terminated_instances,
        (runInstances t m pre initResults).errors
          ++ perInstanceError bad e
            :: (runInstances t m post initResults).errors⟩ := by
  simp only [runInstances_eq]
  simp [initResults, List.filter_append, List.filter_cons,
    not_succeeds_of_raises t m bad e h, errDelta_of_raises t m bad e h]

theorem c2_per_instance_isolation_witness :
    runInstances 10800 7200 ([instA] ++ instBad :: [instB]) initResults =
      ⟨(runInstances 10800 7200 [instA] initResults).terminated_instances
          ++ (runInstances 10800 7200 [instB] initResults).terminated_instances,
        (runInstances 10800 7200 [instA] initResults).errors
          ++ perInstanceError instBad "AccessDenied"
            :: (runInstances 10800 7200 [instB] initResults).errors⟩ :=
  c2_per_instance_isolation 10800 7200 [instA] [instB] instBad "AccessDenied"
    (by decide)

/-- C4: unconditionally, `terminated_instances` equals the identifiers
of exactly those matched instances whose terminate call was reached
and returned normally (launch time read, age strictly over threshold,
tags read, terminate returned), taken in discovery order by a
structure-preserving filter — so the list is append-only, every entry
corresponds to a successfully issued termination request of this
invocation, and its order is the discovery order. -/
theorem c4_terminated_are_issued (t : ℚ) (m : ℤ) (l : List Instance) :
    (runInstances t m l initResults).terminated_instances
      = (l.filter (terminationSucceeds t m)).map Instance.id :=
  runInstances_terminated t m l

/-- C3: when the provider query stage raises (with detail `e`) and the
configuration parsed, the handler does not raise to the caller: it
returns the Result Summary whose `terminated_instances` is the empty
list and whose `errors` is exactly the one entry
"Error in EC2 cleanup: {e}" — no instance is processed. -/
theorem c3_query_failure_caught {α β : Type} (ev : α) (ctx : β) (env : Env)
    (n : ℤ) (e : String) (clock : Clock)
    (h : resolveMaxAgeHours env = .ok n) :
    (lambda_handler ev ctx env (.error e) clock).1
      = .ok ⟨[], ["Error in EC2 cleanup: " ++ e]⟩ := by
  unfold lambda_handler
  rw [h]

theorem c3_query_failure_caught_witness :
    (lambda_handler () () ⟨none, none, none⟩
        (.error "UnauthorizedOperation") ⟨fun _ => 0, 0⟩).1
      = .ok ⟨[], ["Error in EC2 cleanup: " ++ "UnauthorizedOperation"]⟩ :=
  c3_query_failure_caught () () ⟨none, none, none⟩ 2 "UnauthorizedOperation"
    ⟨fun _ => 0, 0⟩ (by decide)

/-- The lifecycle states named by the query filter, as states. -/
def activeStates : List InstanceState :=
  [.pending, .running, .stopping, .stopped]

/-- Modelled from the spec's words, for comparison with the filter the
source passes to the provider: the instance's tag set contains the
exact pair `(tag_key, tag_value)`. -/
def hasExactTag (tag_key tag_value : String) (i : Instance) : Prop :=
  (tag_key, tag_value) ∈ i.tags

theorem contains_apiName_iff (s : InstanceState) :
    activeStateNames.contains s.apiName = true ↔ s ∈ activeStates := by
  cases s <;> decide

theorem matchesFilters_iff (tag_key tag_value : String) (i : Instance) :
    matchesFilters tag_key tag_value i = true ↔
      hasExactTag tag_key tag_value i ∧ i.state ∈ activeStates := by
  unfold matchesFilters tagFilterMatch hasExactTag
  rw [Bool.and_eq_true, contains_apiName_iff]
  constructor
  · rintro ⟨h1, h2⟩
    refine ⟨?_, h2⟩
    rw [List.any_eq_true] at h1
    obtain ⟨p, hp, hpe⟩ := h1
    rw [Bool.and_eq_true, beq_iff_eq, beq_iff_eq] at hpe
    have : p = (tag_key, tag_value) := Prod.ext hpe.1 hpe.2
    rwa [this] at hp
  · rintro ⟨h1, h2⟩
    refine ⟨?_, h2⟩
    rw [List.any_eq_true]
    exact ⟨(tag_key, tag_value), h1, by simp⟩

/-- C5: the provider query returns exactly the account instances whose
tag set contains the exact pair `tag_key = tag_value` and whose
lifecycle state is one of pending, running, stopping, stopped — no
other filter is applied; in particular any instance lacking the exact
tag match or in the `terminated` state is excluded. -/
theorem c5_filter_characterisation (account : List Instance)
    (tag_key tag_value : String) (i : Instance) :
    (i ∈ matchedInstances account tag_key tag_value ↔
        i ∈ account ∧ hasExactTag tag_key tag_value i
          ∧ i.state ∈ activeStates)
      ∧ (i.state = .terminated ∨ ¬ hasExactTag tag_key tag_value i →
          i ∉ matchedInstances account tag_key tag_value) := by
  have hmem : i ∈ matchedInstances account tag_key tag_value ↔
      i ∈ account ∧ hasExactTag tag_key tag_value i
        ∧ i.state ∈ activeStates := by
    unfold matchedInstances
    rw [List.mem_filter, matchesFilters_iff]
  refine ⟨hmem, ?_⟩
  rintro (hterm | htag) hmemi
  · have := (hmem.mp hmemi).2.2
    rw [hterm] at this
    simp [activeStates] at this
  · exact htag (hmem.mp hmemi).2.1

theorem c5_filter_characterisation_witness :
    ((⟨"i-dead", [("Purpose", "Testing")], .terminated, .ok 0, .ok [],
          .ok ()⟩ : Instance)
        ∈ matchedInstances
          [instA, ⟨"i-dead", [("Purpose", "Testing")], .terminated, .ok 0,
            .ok [], .ok ()⟩] "Purpose" "Testing" ↔
        (⟨"i-dead", [("Purpose", "Testing")], .terminated, .ok 0, .ok [],
            .ok ()⟩ : Instance)
          ∈ [instA, ⟨"i-dead", [("Purpose", "Testing")], .terminated, .ok 0,
              .ok [], .ok ()⟩]
          ∧ hasExactTag "Purpose" "Testing"
              ⟨"i-dead", [("Purpose", "Testing")], .terminated, .ok 0, .ok [],
                .ok ()⟩
          ∧ (⟨"i-dead", [("Purpose", "Testing")], .terminated, .ok 0, .ok [],
              .ok ()⟩ : Instance).state ∈ activeStates)
      ∧ ((⟨"i-dead", [("Purpose", "Testing")], .terminated, .ok 0, .ok [],
            .ok ()⟩ : Instance).state = .terminated
          ∨ ¬ hasExactTag "Purpose" "Testing"
              ⟨"i-dead", [("Purpose", "Testing")], .terminated, .ok 0, .ok [],
                .ok ()⟩ →
          (⟨"i-dead", [("Purpose", "Testing")], .terminated, .ok 0, .ok [],
              .ok ()⟩ : Instance)
            ∉ matchedInstances
              [instA, ⟨"i-dead", [("Purpose", "Testing")], .terminated, .ok 0,
                .ok [], .ok ()⟩] "Purpose" "Testing") :=
  c5_filter_characterisation
    [instA, ⟨"i-dead", [("Purpose", "Testing")], .terminated, .ok 0, .ok [],
      .ok ()⟩] "Purpose" "Testing"
    ⟨"i-dead", [("Purpose", "Testing")], .terminated, .ok 0, .ok [], .ok ()⟩

/-- C6: the handler raises to the invoking environment exactly when
MAX_AGE_HOURS is set to a string that does not parse as an integer —
that parse failure is not caught and not recorded in `errors`, and it
is the only way the handler fails to return a Result Summary. -/
theorem c6_parse_failure_only_fatal {α β : Type} (ev : α) (ctx : β)
    (env : Env) (provider : Except String (List Instance)) (clock : Clock) :
    (∃ e, (lambda_handler ev ctx env provider clock).1 = .error e)
      ↔ ∃ s, env.MAX_AGE_HOURS = some s ∧ pyIntOfString s = none := by
  have hchar : (∃ e, resolveMaxAgeHours env = .error e)
      ↔ ∃ s, env.MAX_AGE_HOURS = some s ∧ pyIntOfString s = none := by
    unfold resolveMaxAgeHours
    cases hm : env.MAX_AGE_HOURS with
    | none => simp
    | some s =>
      cases hp : pyIntOfString s with
      | none => simp [hp]
      | some n => simp [hp]
  rw [← hchar]
  unfold lambda_handler
  cases hres : resolveMaxAgeHours env with
  | error e => simp
  | ok n => cases provider <;> simp

theorem c6_parse_failure_only_fatal_witness :
    (∃ e, (lambda_handler () () ⟨some "two", none, none⟩ (.ok [instA])
        ⟨fun _ => 10800, 0⟩).1 = .error e)
      ↔ ∃ s, (⟨some "two", none, none⟩ : Env).MAX_AGE_HOURS = some s
          ∧ pyIntOfString s = none :=
  c6_parse_failure_only_fatal () () ⟨some "two", none, none⟩ (.ok [instA])
    ⟨fun _ => 10800, 0⟩

/-- C7: with a parsable configuration, the handler reads the wall
clock exactly once (the clock advances by one tick), and the returned
Result Summary depends on the clock only through that single reading
taken at procedure start: two invocations whose clocks agree on that
first reading return the same result, so no age comparison re-reads
the clock. -/
theorem c7_single_clock_read {α β : Type} (ev : α) (ctx : β) (env : Env)
    (provider : Except String (List Instance)) (clock : Clock) (n : ℤ)
    (h : resolveMaxAgeHours env = .ok n) :
    ((lambda_handler ev ctx env provider clock).2.ticks = clock.ticks + 1)
      ∧ ∀ clock₂ : Clock,
          clock₂.readings clock₂.ticks = clock.readings clock.ticks →
          (lambda_handler ev ctx env provider clock₂).1
            = (lambda_handler ev ctx env provider clock).1 := by
  constructor
  · unfold lambda_handler
    rw [h]
    cases provider <;> rfl
  · intro clock₂ h2
    unfold lambda_handler
    rw [h]
    cases provider with
    | error e => rfl
    | ok account => simp [Clock.now, h2]

theorem c7_single_clock_read_witness :
    ((lambda_handler () () ⟨none, none, none⟩ (.ok [instA])
        ⟨fun _ => 10800, 0⟩).2.ticks = (⟨fun _ => 10800, 0⟩ : Clock).ticks + 1)
      ∧ ∀ clock₂ : Clock,
          clock₂.readings clock₂.ticks
            = (⟨fun _ => 10800, 0⟩ : Clock).readings
                (⟨fun _ => 10800, 0⟩ : Clock).ticks →
          (lambda_handler () () ⟨none, none, none⟩ (.ok [instA]) clock₂).1
            = (lambda_handler () () ⟨none, none, none⟩ (.ok [instA])
                ⟨fun _ => 10800, 0⟩).1 :=
  c7_single_clock_read () () ⟨none, none, none⟩ (.ok [instA])
    ⟨fun _ => 10800, 0⟩ 2 (by decide)

/-- C9: the two opaque Lambda arguments — the event payload and the
context object — have no effect on the outcome: for identical
environment, provider state and clock, any two event/context values
(even of different types) yield the same returned pair. -/
theorem c9_event_context_irrelevant {α β γ δ : Type} (ev : α) (ctx : β)
    (ev₂ : γ) (ctx₂ : δ) (env : Env)
    (provider : Except String (List Instance)) (clock : Clock) :
    lambda_handler ev ctx env provider clock
      = lambda_handler ev₂ ctx₂ env provider clock := rfl

/-- The account immediately after one invocation at time `t` with
threshold `m`: every instance for which that invocation successfully
issued a termination request has left the active lifecycle states
(terminated instances transition out of pending/running/stopping/
stopped at the provider). -/
def afterRun (tag_key tag_value : String) (t : ℚ) (m : ℤ)
    (account : List Instance) : List Instance :=
  account.map (fun i =>
    if matchesFilters tag_key tag_value i && terminationSucceeds t m i then
      { i with state := .terminated }
    else
      i)

theorem matchesFilters_after_terminate (tag_key tag_value : String)
    (i : Instance) :
    matchesFilters tag_key tag_value { i with state := .terminated }
      = false := by
  have h : activeStateNames.contains InstanceState.terminated.apiName
      = false := by decide
  unfold matchesFilters
  simp [h]
  intro _
  decide

theorem matched_afterRun_no_success (tag_key tag_value : String) (t : ℚ)
    (m : ℤ) (account : List Instance) :
    ∀ j ∈ matchedInstances (afterRun tag_key tag_value t m account)
        tag_key tag_value,
      terminationSucceeds t m j = false := by
  intro j hj
  unfold matchedInstances at hj
  rw [List.mem_filter] at hj
  obtain ⟨hjmem, hjf⟩ := hj
  unfold afterRun at hjmem
  rw [List.mem_map] at hjmem
  obtain ⟨i, hi, hij⟩ := hjmem
  by_cases hcase :
      (matchesFilters tag_key tag_value i && terminationSucceeds t m i) = true
  · rw [if_pos hcase] at hij
    rw [← hij] at hjf
    rw [matchesFilters_after_terminate] at hjf
    exact absurd hjf (by simp)
  · rw [if_neg hcase] at hij
    subst hij
    cases hs : terminationSucceeds t m i with
    | false => rfl
    | true =>
      exfalso
      apply hcase
      rw [Bool.and_eq_true]
      exact ⟨hjf, hs⟩

theorem runInstances_afterRun_terminated (tag_key tag_value : String)
    (t : ℚ) (m : ℤ) (account : List Instance) :
    (runInstances t m (matchedInstances (afterRun tag_key tag_value t m
        account) tag_key tag_value) initResults).terminated_instances
      = [] := by
  rw [runInstances_terminated]
  rw [List.filter_eq_nil_iff.mpr (fun j hj => by
    rw [matched_afterRun_no_success tag_key tag_value t m account j hj]
    simp)]
  rfl

theorem resultSummary_nil_terminated (r : ResultSummary)
    (h : r.terminated_instances = []) : r = ⟨[], r.errors⟩ := by
  obtain ⟨a, b⟩ := r
  have ha : a = [] := h
  rw [ha]

/-- C8: running the procedure a second time in immediate succession
(same configuration, same clock reading) against the account state in
which every instance terminated by the first run has transitioned out
of the filtered lifecycle states yields an empty
`terminated_instances`: no instance is terminated twice. -/
theorem c8_second_run_terminates_nothing {α β : Type} (ev : α) (ctx : β)
    (env : Env) (n : ℤ) (account : List Instance) (clock clock₂ : Clock)
    (h : resolveMaxAgeHours env = .ok n)
    (h2 : clock₂.readings clock₂.ticks = clock.readings clock.ticks) :
    ∃ errs, (lambda_handler ev ctx env
        (.ok (afterRun (env.TAG_KEY.getD DEFAULT_TAG_KEY)
          (env.TAG_VALUE.getD DEFAULT_TAG_VALUE)
          (clock.readings clock.ticks) (n * 3600) account)) clock₂).1
      = .ok ⟨[], errs⟩ := by
  unfold lambda_handler
  rw [h]
  simp only [Clock.now, h2]
  refine ⟨(runInstances (clock.readings clock.ticks) (n * 3600)
    (matchedInstances (afterRun (env.TAG_KEY.getD DEFAULT_TAG_KEY)
        (env.TAG_VALUE.getD DEFAULT_TAG_VALUE)
        (clock.readings clock.ticks) (n * 3600) account)
      (env.TAG_KEY.getD DEFAULT_TAG_KEY)
      (env.TAG_VALUE.getD DEFAULT_TAG_VALUE)) initResults).errors, ?_⟩
  congr 1
  exact resultSummary_nil_terminated _
    (runInstances_afterRun_terminated (env.TAG_KEY.getD DEFAULT_TAG_KEY)
      (env.TAG_VALUE.getD DEFAULT_TAG_VALUE)
      (clock.readings clock.ticks) (n * 3600) account)

theorem c8_second_run_terminates_nothing_witness :
    ∃ errs, (lambda_handler () () ⟨none, none, none⟩
        (.ok (afterRun ((⟨none, none, none⟩ : Env).TAG_KEY.getD
            DEFAULT_TAG_KEY)
          ((⟨none, none, none⟩ : Env).TAG_VALUE.getD DEFAULT_TAG_VALUE)
          ((⟨fun _ => 10800, 0⟩ : Clock).readings
            (⟨fun _ => 10800, 0⟩ : Clock).ticks)
          ((2 : ℤ) * 3600) [instA, instB])) ⟨fun _ => 10800, 0⟩).1
      = .ok ⟨[], errs⟩ :=
  c8_second_run_terminates_nothing () () ⟨none, none, none⟩ 2 [instA, instB]
    ⟨fun _ => 10800, 0⟩ ⟨fun _ => 10800, 0⟩ (by decide) rfl

/-- C10: configuration resolution performs no positivity validation:
for any string parsing to an integer `n` — zero and negatives
included — the handler proceeds and returns a Result Summary; and when
`n` is negative, every matched instance with nonnegative age whose
per-instance operations succeed satisfies the strict age comparison,
so a termination request is issued for it and `terminated_instances`
is exactly the identifiers of all matched instances. -/
theorem c10_no_positivity_validation {α β : Type} (ev : α) (ctx : β)
    (s : String) (n : ℤ) (tk tv : Option String) (account : List Instance)
    (clock : Clock) (hp : pyIntOfString s = some n) :
    (∃ r, (lambda_handler ev ctx ⟨some s, tk, tv⟩ (.ok account) clock).1
        = .ok r)
      ∧ (n < 0 →
          (∀ i ∈ matchedInstances account (tk.getD DEFAULT_TAG_KEY)
              (tv.getD DEFAULT_TAG_VALUE), instanceOpsOk i = true) →
          (∀ i ∈ matchedInstances account (tk.getD DEFAULT_TAG_KEY)
              (tv.getD DEFAULT_TAG_VALUE),
            ∀ lt : ℚ, i.launch_time = .ok lt →
              0 ≤ clock.readings clock.ticks - lt) →
          ∃ r, (lambda_handler ev ctx ⟨some s, tk, tv⟩ (.ok account) clock).1
              = .ok r
            ∧ r.terminated_instances
              = (matchedInstances account (tk.getD DEFAULT_TAG_KEY)
                  (tv.getD DEFAULT_TAG_VALUE)).map Instance.id) := by
  have hres : resolveMaxAgeHours ⟨some s, tk, tv⟩ = .ok n := by
    unfold resolveMaxAgeHours
    simp [hp]
  have hmain : (lambda_handler ev ctx ⟨some s, tk, tv⟩ (.ok account) clock).1
      = .ok (runInstances (clock.readings clock.ticks) (n * 3600)
          (matchedInstances account (tk.getD DEFAULT_TAG_KEY)
            (tv.getD DEFAULT_TAG_VALUE)) initResults) := by
    unfold lambda_handler
    rw [hres]
    rfl
  constructor
  · exact ⟨_, hmain⟩
  · intro hn hops hage
    refine ⟨_, hmain, ?_⟩
    have hall : ∀ i ∈ matchedInstances account (tk.getD DEFAULT_TAG_KEY)
        (tv.getD DEFAULT_TAG_VALUE),
        terminationSucceeds (clock.readings clock.ticks) (n * 3600) i
          = true := by
      intro i hi
      have hok := hops i hi
      unfold instanceOpsOk at hok
      rw [Bool.and_eq_true, Bool.and_eq_true] at hok
      unfold terminationSucceeds
      cases hl : i.launch_time with
      | error e =>
        rw [hl] at hok
        exact absurd hok.1.1 (by simp [Except.succeeded])
      | ok lt =>
        have h0 : 0 ≤ clock.readings clock.ticks - lt := hage i hi lt hl
        have hcast : ((n * 3600 : ℤ) : ℚ) < 0 := by
          have hq : (n : ℚ) < 0 := by exact_mod_cast hn
          push_cast
          nlinarith
        have hgt : clock.readings clock.ticks - lt > ((n * 3600 : ℤ) : ℚ) :=
          lt_of_lt_of_le hcast h0
        simp [hok.1.2, hok.2]
        push_cast at hgt
        linarith
    rw [runInstances_terminated, List.filter_eq_self.mpr hall]

theorem c10_no_positivity_validation_witness :
    (∃ r, (lambda_handler () () ⟨some "-1", none, none⟩ (.ok [instA])
        ⟨fun _ => 10800, 0⟩).1 = .ok r)
      ∧ ((-1 : ℤ) < 0 →
          (∀ i ∈ matchedInstances [instA]
              ((none : Option String).getD DEFAULT_TAG_KEY)
              ((none : Option String).getD DEFAULT_TAG_VALUE),
            instanceOpsOk i = true) →
          (∀ i ∈ matchedInstances [instA]
              ((none : Option String).getD DEFAULT_TAG_KEY)
              ((none : Option String).getD DEFAULT_TAG_VALUE),
            ∀ lt : ℚ, i.launch_time = .ok lt →
              0 ≤ (⟨fun _ => 10800, 0⟩ : Clock).readings
                  (⟨fun _ => 10800, 0⟩ : Clock).ticks - lt) →
          ∃ r, (lambda_handler () () ⟨some "-1", none, none⟩ (.ok [instA])
              ⟨fun _ => 10800, 0⟩).1 = .ok r
            ∧ r.terminated_instances
              = (matchedInstances [instA]
                  ((none : Option String).getD DEFAULT_TAG_KEY)
                  ((none : Option String).getD DEFAULT_TAG_VALUE)).map
                    Instance.id) :=
  c10_no_positivity_validation () () "-1" (-1) none none [instA]
    ⟨fun _ => 10800, 0⟩ (by decide)

end CloudSnooze
